import Mathlib

/-!
Verification development for the tech-land-tool repository.

The repository's orchestrator (src/App.tsx) is embedded as a state machine:
the React useState/useRef cells form the state record, and each handler
becomes a state-transforming function. The external transformData service
(not part of the supplied sources) is represented at its interface
boundary: each call site takes the call's outcome (resolved value, or the
message of a rejection) as an explicit parameter, together with the log
entries the service emitted through the addLog sink it was handed.
Wall-clock timestamps attached to log entries are an external input with
no influence on control flow, so they are omitted from the embedding.

The validate/normalize/reconcile/classify transformation core is absent
from src/; the definitions in the Classifier section are modelled from the
spec (sections 4.3, 4.4 and 8) as the task requires.
-/

/-- Severity of a log entry, from the addLog signature in src/App.tsx. -/
inductive LogType where
  | info
  | error
  | success
deriving DecidableEq, Repr

/-- One entry of the ordered log sink (message and severity; the wall-clock
timestamp is an external input, omitted). -/
structure LogEntry where
  message : String
  type : LogType
deriving DecidableEq, Repr

/-- Status of one dataset slot, from src/types (used throughout App.tsx). -/
inductive FileStatus where
  | waiting
  | loading
  | valid
  | invalid
deriving DecidableEq, Repr

/-- The two dataset slots of the orchestrator. -/
inductive FileType where
  | input
  | results
deriving DecidableEq, Repr

/-- A pair of per-slot values, one for each dataset slot; this models the
`{ [key in FileType]: ... }` objects of App.tsx. -/
structure Slots (α : Type) where
  input : α
  results : α
deriving DecidableEq, Repr

/-- Read the value of one slot. -/
def Slots.get (s : Slots α) : FileType → α
  | .input => s.input
  | .results => s.results

/-- Update the value of one slot, as `{ ...prev, [type]: v }` does. -/
def Slots.set (s : Slots α) : FileType → α → Slots α
  | .input, v => { s with input := v }
  | .results, v => { s with results := v }

@[simp] theorem Slots.get_set_same (s : Slots α) (t : FileType) (v : α) :
    (s.set t v).get t = v := by
  cases t <;> rfl

theorem Slots.get_set_other (s : Slots α) (t t' : FileType) (v : α)
    (h : t' ≠ t) : (s.set t v).get t' = s.get t' := by
  cases t <;> cases t' <;> first | rfl | exact absurd rfl h

/-! ## Classifier core (absent from src/, modelled from the spec) -/

/-- Modelled from the spec: the transformation core's InputRecord
(src/services/transformer is missing). A typed, normalized Input row:
a land-identifier key plus the remaining named fields (spec section 3). -/
structure InputRecord where
  key : String
  fields : List (String × String)
deriving DecidableEq, Repr

/-- Modelled from the spec: the transformation core's ResultRecord
(src/services/transformer is missing). A normalized Results row: the key,
whether a contact milestone and a retrieval/documentation milestone are
recorded in its outcome status field (spec fixes the shape of this
predicate, section 9), and the remaining fields. -/
structure ResultRecord where
  key : String
  contactRecorded : Bool
  retrievalRecorded : Bool
  fields : List (String × String)
deriving DecidableEq, Repr

/-- Modelled from the spec: one reconciliation outcome per Input key
(spec section 3): the key, the Input record it was seeded from, the
matching Results record when one exists, and the multiplicity counts. -/
structure ReconciliationOutcome where
  key : String
  input : InputRecord
  results : Option ResultRecord
  inputCount : Nat
  resultsCount : Nat
deriving DecidableEq, Repr

/-- Modelled from the spec: an output record merges the Input record's
fields with any available Results fields, Results fields absent left as
empty/default (spec section 4.4). -/
structure OutputRecord where
  key : String
  inputFields : List (String × String)
  resultFields : List (String × String)
deriving DecidableEq, Repr

/-- Modelled from the spec: merge an Input record with an optional
matching Results record into one output record (spec section 4.4). -/
def mergeRecord (i : InputRecord) (r : Option ResultRecord) : OutputRecord :=
  { key := i.key
    inputFields := i.fields
    resultFields := (r.map ResultRecord.fields).getD [] }

/-- The OutputBundle of the spec, named OutputData as in App.tsx's import
from the transformer service: one record sequence per output category. -/
structure OutputData where
  scouted : List OutputRecord
  retrieved : List OutputRecord
  contacted : List OutputRecord
deriving DecidableEq, Repr

/-- The three output categories of the acquisition funnel. -/
inductive Category where
  | scouted
  | retrieved
  | contacted
deriving DecidableEq, Repr

/-- Read one category's record sequence out of a bundle, as
`outputData[key]` does in App.tsx. -/
def OutputData.get (b : OutputData) : Category → List OutputRecord
  | .scouted => b.scouted
  | .retrieved => b.retrieved
  | .contacted => b.contacted

/-- Modelled from the spec: the Reconciler (spec section 4.3,
src/services/transformer is missing): key-equality join seeded from the
Input keys, emitting outcomes in Input order; Results keys with no Input
counterpart are not promoted to outcomes. -/
def reconcile (inputs : List InputRecord) (results : List ResultRecord) :
    List ReconciliationOutcome :=
  inputs.map fun i =>
    { key := i.key
      input := i
      results := results.find? fun r => r.key == i.key
      inputCount := inputs.countP fun j => j.key == i.key
      resultsCount := results.countP fun r => r.key == i.key }

/-- Modelled from the spec: the Classifier's ordered, mutually-exclusive
rule set for one outcome, first matching rule wins (spec section 4.4):
1. no matching Results record: scouted; 2. Results present with a
retrieval milestone and no contact milestone: retrieved; 3. Results
present with a contact milestone: contacted; otherwise the outcome is
dropped with a diagnostic (result none). -/
def classifyOutcome (o : ReconciliationOutcome) :
    Option (Category × OutputRecord) :=
  match o.results with
  | none => some (.scouted, mergeRecord o.input none)
  | some r =>
    if r.retrievalRecorded && !r.contactRecorded then
      some (.retrieved, mergeRecord o.input (some r))
    else if r.contactRecorded then
      some (.contacted, mergeRecord o.input (some r))
    else
      none

/-- Modelled from the spec: the Classifier over a sequence of outcomes
(spec section 4.4, src/services/transformer is missing): route each
outcome to its category preserving order, collecting the keys of dropped
outcomes as diagnostics. -/
def classify : List ReconciliationOutcome → OutputData × List String
  | [] => (⟨[], [], []⟩, [])
  | o :: rest =>
    match classifyOutcome o, classify rest with
    | some (.scouted, r), (b, d) => ({ b with scouted := r :: b.scouted }, d)
    | some (.retrieved, r), (b, d) => ({ b with retrieved := r :: b.retrieved }, d)
    | some (.contacted, r), (b, d) => ({ b with contacted := r :: b.contacted }, d)
    | none, (b, d) => (b, o.key :: d)

/-- The processing stage as the spec composes it: reconcile the two
normalized record sets, then classify every outcome. -/
def runPipeline (inputs : List InputRecord) (results : List ResultRecord) :
    OutputData × List String :=
  classify (reconcile inputs results)

/-! ## Orchestrator state (src/App.tsx) -/

/-- The untyped jsonData a successful transformData ingestion call returns
and App.tsx caches per slot: row-oriented tabular data, each row a list of
header/value cells. App.tsx never inspects it, only stores it and passes
it back to the processing call. -/
abbrev JsonData := List (List (String × String))

/-- The orchestrator's state: the useState and useRef cells of the App
component in src/App.tsx (files, fileStatus, fileErrors, logs,
isProcessing, outputData, resetKey, fileDataCache). Files are identified
by their name. -/
structure AppState where
  files : Slots (Option String)
  fileStatus : Slots FileStatus
  fileErrors : Slots (Option String)
  logs : List LogEntry
  isProcessing : Bool
  outputData : Option OutputData
  resetKey : Nat
  fileDataCache : Slots (Option JsonData)
deriving DecidableEq, Repr

/-- The initial state of the App component: every useState initializer in
src/App.tsx. -/
def initialState : AppState :=
  { files := ⟨none, none⟩
    fileStatus := ⟨.waiting, .waiting⟩
    fileErrors := ⟨none, none⟩
    logs := []
    isProcessing := false
    outputData := none
    resetKey := 0
    fileDataCache := ⟨none, none⟩ }

/-! ## Handlers (src/App.tsx) -/

/-- The result of App.tsx's ValidationResult as consumed by
handleFileChange: the verdict and the itemized error messages. -/
structure ValidationResult where
  isValid : Bool
  errors : List String
deriving DecidableEq, Repr

/-- Outcome of one awaited `transformData(type, file, addLog)` ingestion
call, observed at the call site in handleFileChange: either the promise
resolves with `{jsonData, validation}`, or it rejects with an error
message; `emitted` is what the service itself sent through the addLog
sink before returning. -/
inductive IngestOutcome where
  | ok (emitted : List LogEntry) (jsonData : JsonData)
      (validation : ValidationResult)
  | err (emitted : List LogEntry) (message : String)
deriving DecidableEq, Repr

/-- The synchronous head of handleFileChange (App.tsx lines 52-55), run
before the transformData call is awaited: record the selected file, reset
the output, mark the slot loading, clear the slot's error. -/
def fileChangeStart (name : String) (t : FileType) (s : AppState) :
    AppState :=
  { s with
    files := s.files.set t (some name)
    outputData := none
    fileStatus := s.fileStatus.set t .loading
    fileErrors := s.fileErrors.set t none }

/-- The continuation of handleFileChange after transformData settles
(App.tsx lines 57-76): on a valid result cache the data, mark the slot
valid and log success; on an invalid result clear the cache, mark the
slot invalid, record the first error and log every error; on a rejection
log the failure, mark the slot invalid, record the message and clear the
cache. -/
def fileChangeFinish (name : String) (t : FileType) (o : IngestOutcome)
    (s : AppState) : AppState :=
  match o with
  | .ok emitted jsonData validation =>
    if validation.isValid then
      { s with
        fileDataCache := s.fileDataCache.set t (some jsonData)
        fileStatus := s.fileStatus.set t .valid
        logs := s.logs ++ emitted ++
          [⟨s!"'{name}' loaded and validated successfully.", .success⟩] }
    else
      { s with
        fileDataCache := s.fileDataCache.set t none
        fileStatus := s.fileStatus.set t .invalid
        fileErrors := s.fileErrors.set t validation.errors.head?
        logs := s.logs ++ emitted ++
          validation.errors.map fun e => ⟨e, .error⟩ }
  | .err emitted message =>
    { s with
      logs := s.logs ++ emitted ++
        [⟨s!"Error processing {name}: {message}", .error⟩]
      fileStatus := s.fileStatus.set t .invalid
      fileErrors := s.fileErrors.set t (some message)
      fileDataCache := s.fileDataCache.set t none }

/-- One whole handleFileChange invocation (App.tsx lines 51-77): the
synchronous head followed by the continuation for the given outcome of
the transformData call. -/
def handleFileChange (name : String) (t : FileType) (o : IngestOutcome)
    (s : AppState) : AppState :=
  fileChangeFinish name t o (fileChangeStart name t s)

/-- Outcome of one awaited `transformData('process', ...)` call, observed
at the call site in handleRunTransformation: the promise resolves with a
truthy output, resolves with no output, or rejects with an error message;
`emitted` is what the service sent through the addLog sink. -/
inductive RunOutcome where
  | ok (emitted : List LogEntry) (output : OutputData)
  | noOutput (emitted : List LogEntry)
  | err (emitted : List LogEntry) (message : String)
deriving DecidableEq, Repr

/-- Whether a run outcome carries output data. -/
def RunOutcome.isSuccess : RunOutcome → Bool
  | .ok _ _ => true
  | _ => false

/-- The synchronous head of handleRunTransformation (App.tsx lines
80-91): refuse with an error log when either cached dataset is missing;
otherwise raise the processing flag, discard the previous output, clear
the logs for the new run and log the start notice. -/
def handleRunStart (s : AppState) : AppState :=
  match s.fileDataCache.input, s.fileDataCache.results with
  | some _, some _ =>
    { s with
      isProcessing := true
      outputData := none
      logs := [⟨"Starting transformation process...", .info⟩] }
  | _, _ =>
    { s with
      logs := s.logs ++
        [⟨"Both Input and Results files must be loaded and valid before running.",
          .error⟩] }

/-- The continuation of handleRunTransformation after the processing
transformData call settles (App.tsx lines 93-106): on a truthy output
store it and log completion; on a falsy output the thrown error is caught
and logged; on a rejection the error is caught and logged; in every case
the finally clause lowers the processing flag. -/
def handleRunFinish (o : RunOutcome) (s : AppState) : AppState :=
  match o with
  | .ok emitted output =>
    { s with
      outputData := some output
      logs := s.logs ++ emitted ++
        [⟨"Transformation complete. Output files are ready for download.",
          .success⟩]
      isProcessing := false }
  | .noOutput emitted =>
    { s with
      logs := s.logs ++ emitted ++
        [⟨"An unexpected error occurred during transformation: Transformation did not produce any output data.",
          .error⟩]
      isProcessing := false }
  | .err emitted message =>
    { s with
      logs := s.logs ++ emitted ++
        [⟨s!"An unexpected error occurred during transformation: {message}",
          .error⟩]
      isProcessing := false }

/-- Outcome of the XLSX encode/save block in handleDownload: either the
external encoder and saveAs succeed, or one of them throws with a
message. -/
inductive DownloadOutcome where
  | ok
  | err (message : String)
deriving DecidableEq, Repr

/-- handleDownload (App.tsx lines 109-127): when no bundle is present or
the requested category is empty, log one error and export nothing;
otherwise log the generation notice, then hand the category's records to
the external encoder and saveAs. The second component of the result is
the list of file names handed to saveAs during the call. -/
def handleDownload (k : Category) (fileName : String) (o : DownloadOutcome)
    (s : AppState) : AppState × List String :=
  match s.outputData with
  | none =>
    ({ s with logs := s.logs ++
        [⟨s!"No data available to download for {fileName}.", .error⟩] }, [])
  | some b =>
    if (b.get k).length = 0 then
      ({ s with logs := s.logs ++
          [⟨s!"No data available to download for {fileName}.", .error⟩] }, [])
    else
      match o with
      | .ok =>
        ({ s with logs := s.logs ++
            [⟨s!"Generating {fileName}...", .info⟩,
             ⟨s!"{fileName} downloaded successfully.", .success⟩] },
         [fileName])
      | .err message =>
        ({ s with logs := s.logs ++
            [⟨s!"Generating {fileName}...", .info⟩,
             ⟨s!"Failed to generate {fileName}: {message}", .error⟩] }, [])

/-- handleReset (App.tsx lines 129-139): clear both slots back to
waiting, drop files, errors, logs, output and both caches, and bump the
remount key. The processing flag is not touched by the handler. -/
def handleReset (s : AppState) : AppState :=
  { files := ⟨none, none⟩
    fileStatus := ⟨.waiting, .waiting⟩
    fileErrors := ⟨none, none⟩
    logs := []
    outputData := none
    fileDataCache := ⟨none, none⟩
    isProcessing := s.isProcessing
    resetKey := s.resetKey + 1 }

/-- canRun (App.tsx line 141): both slots validated. -/
def canRun (s : AppState) : Bool :=
  s.fileStatus.input == .valid && s.fileStatus.results == .valid

/-- The run button is enabled exactly when `!(!canRun || isProcessing)`
(App.tsx line 212): invoking the run operation is possible only then. -/
def runEnabled (s : AppState) : Prop :=
  canRun s = true ∧ s.isProcessing = false

instance (s : AppState) : Decidable (runEnabled s) := by
  unfold runEnabled; infer_instance


/-! ## Transition system over the orchestrator -/

/-- The user-visible operations of the App, each carrying the external
inputs that determine its effect. A run is split into its synchronous
head (runStart) and the continuation after the awaited processing call
(runFinish), because ingestion and reset remain invocable while a run is
in flight. -/
inductive Event where
  | file (name : String) (t : FileType) (o : IngestOutcome)
  | runStart
  | runFinish (o : RunOutcome)
  | reset
  | download (k : Category) (fileName : String) (o : DownloadOutcome)
deriving DecidableEq, Repr

/-- One step of the App: a handler invocation under the conditions the UI
imposes. The run button requires `runEnabled` (App.tsx line 212), the
reset button is rendered only when some slot left waiting (line 148), the
download buttons only render while a bundle is present (line 222), and a
run continuation exists only while a run is in flight. Dropzones are
always active, so file selection is unconditioned. -/
inductive Step : AppState → Event → AppState → Prop where
  | file (s : AppState) (name : String) (t : FileType) (o : IngestOutcome) :
      Step s (.file name t o) (handleFileChange name t o s)
  | runStart (s : AppState) (h : runEnabled s) :
      Step s .runStart (handleRunStart s)
  | runFinish (s : AppState) (o : RunOutcome) (h : s.isProcessing = true) :
      Step s (.runFinish o) (handleRunFinish o s)
  | reset (s : AppState)
      (h : s.fileStatus.input ≠ .waiting ∨ s.fileStatus.results ≠ .waiting) :
      Step s .reset (handleReset s)
  | download (s : AppState) (k : Category) (fileName : String)
      (o : DownloadOutcome) (h : s.outputData ≠ none) :
      Step s (.download k fileName o) (handleDownload k fileName o s).1

/-- States the App can reach from its initial state. -/
inductive Reachable : AppState → Prop where
  | init : Reachable initialState
  | step {s s' : AppState} {e : Event} (h : Reachable s)
      (hs : Step s e s') : Reachable s'

/-- An event is quiescent in a state when it is not an ingestion or reset
performed while a run is in flight. -/
def quiescent (e : Event) (s : AppState) : Prop :=
  match e with
  | .file _ _ _ => s.isProcessing = false
  | .reset => s.isProcessing = false
  | _ => True

/-- States reachable along traces in which no ingestion or reset step is
taken while a run is in flight. -/
inductive QReachable : AppState → Prop where
  | init : QReachable initialState
  | step {s s' : AppState} {e : Event} (h : QReachable s)
      (hs : Step s e s') (hq : quiescent e s) : QReachable s'

/-! ## Concrete traces used by witnesses and counterexamples -/

/-- A successful ingestion outcome carrying one data row. -/
def exIngestOk : IngestOutcome :=
  .ok [] [[("id", "A1"), ("area", "10")]] ⟨true, []⟩

/-- State after loading a valid Input file from the initial state. -/
def exS1 : AppState := handleFileChange "input.xlsx" .input exIngestOk initialState

/-- State after additionally loading a valid Results file. -/
def exS2 : AppState :=
  handleFileChange "results.xlsx" .results exIngestOk exS1

/-- State after pressing the run button in `exS2`. -/
def exS3 : AppState := handleRunStart exS2

/-- A concrete bundle returned by a successful processing call. -/
def exBundle : OutputData :=
  { scouted := [⟨"A2", [("area", "5")], []⟩]
    retrieved := []
    contacted := [⟨"A1", [("area", "10")], [("status", "contacted")]⟩] }

/-- State after the in-flight run completes successfully. -/
def exS4 : AppState := handleRunFinish (.ok [] exBundle) exS3

theorem reachable_exS2 : Reachable exS2 :=
  (Reachable.init.step (Step.file initialState "input.xlsx" .input exIngestOk)).step
    (Step.file exS1 "results.xlsx" .results exIngestOk)

theorem reachable_exS4 : Reachable exS4 :=
  (reachable_exS2.step (Step.runStart exS2 (by decide))).step
    (Step.runFinish exS3 (.ok [] exBundle) (by decide))

theorem qreachable_exS4 : QReachable exS4 :=
  (((QReachable.init.step
      (Step.file initialState "input.xlsx" .input exIngestOk) rfl).step
      (Step.file exS1 "results.xlsx" .results exIngestOk) rfl).step
      (Step.runStart exS2 (by decide)) trivial).step
      (Step.runFinish exS3 (.ok [] exBundle) (by decide)) trivial

/-! ## Handler component lemmas -/

theorem handleFileChange_outputData (name : String) (t : FileType)
    (o : IngestOutcome) (s : AppState) :
    (handleFileChange name t o s).outputData = none := by
  cases o with
  | ok em j v =>
    by_cases hv : v.isValid <;>
      simp [handleFileChange, fileChangeFinish, fileChangeStart, hv]
  | err em m => rfl

theorem handleFileChange_isProcessing (name : String) (t : FileType)
    (o : IngestOutcome) (s : AppState) :
    (handleFileChange name t o s).isProcessing = s.isProcessing := by
  cases o with
  | ok em j v =>
    by_cases hv : v.isValid <;>
      simp [handleFileChange, fileChangeFinish, fileChangeStart, hv]
  | err em m => rfl

theorem handleDownload_frame (k : Category) (fileName : String)
    (o : DownloadOutcome) (s : AppState) :
    (handleDownload k fileName o s).1.fileStatus = s.fileStatus ∧
    (handleDownload k fileName o s).1.fileDataCache = s.fileDataCache ∧
    (handleDownload k fileName o s).1.outputData = s.outputData ∧
    (handleDownload k fileName o s).1.isProcessing = s.isProcessing := by
  unfold handleDownload
  cases s.outputData with
  | none => exact ⟨rfl, rfl, rfl, rfl⟩
  | some b =>
    by_cases hlen : (b.get k).length = 0
    · simp [hlen]
    · cases o <;> simp [hlen]

/-! ## Claims C3, C4, C5, C6, C7 -/

/-- C3: in every reachable state of the orchestrator a reconcile+classify
run proceeds only when both dataset slots are simultaneously valid: a run
step that raises the processing flag (rather than refusing) can only start
from a state in which both slots have status valid, because the run button
is enabled only under canRun. -/
theorem C3_run_requires_valid (s s' : AppState) (_hr : Reachable s)
    (hs : Step s .runStart s') (_hp : s'.isProcessing = true) :
    s.fileStatus.input = .valid ∧ s.fileStatus.results = .valid := by
  cases hs with
  | runStart hen =>
    have h1 := hen.1
    simp only [canRun, Bool.and_eq_true, beq_iff_eq] at h1
    exact h1

/-- Witness for C3 at the concrete two-upload trace. -/
theorem C3_run_requires_valid_witness :
    exS2.fileStatus.input = .valid ∧ exS2.fileStatus.results = .valid :=
  C3_run_requires_valid exS2 exS3 reachable_exS2
    (Step.runStart exS2 (by decide)) (by decide)

/-- C4: while a run is in flight (isProcessing is true) no second run can
start: the run button's explicit processing flag blocks any re-entrant
runStart step, in every state. -/
theorem C4_no_reentrant_run (s s' : AppState) (hp : s.isProcessing = true) :
    ¬ Step s .runStart s' := by
  intro h
  cases h with
  | runStart hen => rw [hen.2] at hp; exact absurd hp (by simp)

/-- Witness for C4 at the concrete in-flight state. -/
theorem C4_no_reentrant_run_witness : ¬ Step exS3 .runStart exS3 :=
  C4_no_reentrant_run exS3 exS3 (by decide)

/-- C5: after handleReset completes, from any state, both dataset slots
are back to waiting, both cached normalized-record slots are cleared and
the previously computed bundle is discarded. -/
theorem C5_reset_clears (s : AppState) :
    (handleReset s).fileStatus.input = .waiting ∧
    (handleReset s).fileStatus.results = .waiting ∧
    (handleReset s).fileDataCache.input = none ∧
    (handleReset s).fileDataCache.results = none ∧
    (handleReset s).outputData = none :=
  ⟨rfl, rfl, rfl, rfl, rfl⟩

/-- The status a slot ends in according to the outcome of the
transformData ingestion call, read off the branches of handleFileChange. -/
def ingestFinalStatus : IngestOutcome → FileStatus
  | .ok _ _ v => if v.isValid then .valid else .invalid
  | .err _ _ => .invalid

/-- C6: every handleFileChange invocation first sets the selected slot to
loading (the synchronous head), and only the continuation of the settled
transformData call moves it to valid or invalid according to the
validation outcome; the whole handler is exactly that composition, so a
slot never moves between valid/invalid verdicts without passing through
loading. -/
theorem C6_loading_first (name : String) (t : FileType) (o : IngestOutcome)
    (s : AppState) :
    (fileChangeStart name t s).fileStatus.get t = .loading ∧
    handleFileChange name t o s =
      fileChangeFinish name t o (fileChangeStart name t s) ∧
    (handleFileChange name t o s).fileStatus.get t = ingestFinalStatus o := by
  refine ⟨by simp [fileChangeStart], rfl, ?_⟩
  cases o with
  | ok em j v =>
    by_cases hv : v.isValid <;>
      simp [handleFileChange, fileChangeFinish, fileChangeStart,
        ingestFinalStatus, hv]
  | err em m =>
    simp [handleFileChange, fileChangeFinish, fileChangeStart,
      ingestFinalStatus]

/-- C7: ingestion of one slot never affects the other slot: whatever the
outcome of the transformData call (valid, invalid or a thrown error),
handleFileChange leaves the other slot's selected file, status, error
message and cached normalized data unchanged. -/
theorem C7_slot_frame (name : String) (t : FileType) (o : IngestOutcome)
    (s : AppState) (t' : FileType) (h : t' ≠ t) :
    (handleFileChange name t o s).files.get t' = s.files.get t' ∧
    (handleFileChange name t o s).fileStatus.get t' = s.fileStatus.get t' ∧
    (handleFileChange name t o s).fileErrors.get t' = s.fileErrors.get t' ∧
    (handleFileChange name t o s).fileDataCache.get t' =
      s.fileDataCache.get t' := by
  cases o with
  | ok em j v =>
    by_cases hv : v.isValid <;>
      simp [handleFileChange, fileChangeFinish, fileChangeStart, hv,
        Slots.get_set_other _ _ _ _ h]
  | err em m =>
    simp [handleFileChange, fileChangeFinish, fileChangeStart,
      Slots.get_set_other _ _ _ _ h]

/-- Witness for C7: loading the Input slot leaves the Results slot alone. -/
theorem C7_slot_frame_witness :
    (handleFileChange "input.xlsx" .input exIngestOk initialState).files.get
        .results = initialState.files.get .results ∧
    (handleFileChange "input.xlsx" .input exIngestOk
        initialState).fileStatus.get .results =
      initialState.fileStatus.get .results ∧
    (handleFileChange "input.xlsx" .input exIngestOk
        initialState).fileErrors.get .results =
      initialState.fileErrors.get .results ∧
    (handleFileChange "input.xlsx" .input exIngestOk
        initialState).fileDataCache.get .results =
      initialState.fileDataCache.get .results :=
  C7_slot_frame "input.xlsx" .input exIngestOk initialState .results
    (by decide)

/-! ## Claim C1 -/

/-- State after pressing the run button again in `exS4`. -/
def exS5 : AppState := handleRunStart exS4

/-- State after that second run fails with an error. -/
def exS6 : AppState := handleRunFinish (.err [] "boom") exS5

/-- C1 as stated is false on the code: a reachable state holds the
bundle of a completed run, a second run fails, and the outputData
observable after the failing run is null rather than the prior bundle,
because handleRunTransformation discards the previous bundle when the
run starts. -/
theorem C1_counterexample :
    Reachable exS4 ∧ exS4.outputData = some exBundle ∧
    Step exS4 .runStart exS5 ∧
    Step exS5 (.runFinish (.err [] "boom")) exS6 ∧
    exS6.outputData ≠ exS4.outputData :=
  ⟨reachable_exS4, by decide, Step.runStart exS4 (by decide),
   Step.runFinish exS5 (.err [] "boom") (by decide), by decide⟩

/-- C1 amended: if a processing run fails (the transformData call
resolves with no output or rejects), no partial bundle is exposed: the
outputData observable after the run is null — the previously computed
bundle was already discarded when the run started, so it is not
preserved. -/
theorem C1_failed_run_no_partial (s : AppState) (o : RunOutcome)
    (hin : s.fileDataCache.input ≠ none)
    (hres : s.fileDataCache.results ≠ none)
    (hfail : o.isSuccess = false) :
    (handleRunFinish o (handleRunStart s)).outputData = none := by
  cases o with
  | ok em out => simp [RunOutcome.isSuccess] at hfail
  | noOutput em =>
    cases hi : s.fileDataCache.input with
    | none => exact absurd hi hin
    | some a =>
      cases hr2 : s.fileDataCache.results with
      | none => exact absurd hr2 hres
      | some b => simp [handleRunFinish, handleRunStart, hi, hr2]
  | err em m =>
    cases hi : s.fileDataCache.input with
    | none => exact absurd hi hin
    | some a =>
      cases hr2 : s.fileDataCache.results with
      | none => exact absurd hr2 hres
      | some b => simp [handleRunFinish, handleRunStart, hi, hr2]

/-- Witness for the amended C1 at the concrete post-run state. -/
theorem C1_failed_run_no_partial_witness :
    (handleRunFinish (.err [] "boom") (handleRunStart exS4)).outputData =
      none :=
  C1_failed_run_no_partial exS4 (.err [] "boom") (by decide) (by decide)
    rfl

/-! ## Claim C10 -/

/-- No exportable data for a category: the bundle is absent, or the
category's record sequence is empty — the guard of handleDownload. -/
def noDownloadData (s : AppState) (k : Category) : Prop :=
  match s.outputData with
  | none => True
  | some b => b.get k = []

/-- C10: when the bundle is absent or the requested category is empty,
handleDownload performs no export (nothing is handed to the external
encoder and saveAs), appends exactly one error entry to the log, and
leaves all other state unchanged. -/
theorem C10_download_guard (k : Category) (fileName : String)
    (o : DownloadOutcome) (s : AppState) (h : noDownloadData s k) :
    handleDownload k fileName o s =
      ({ s with logs := s.logs ++
          [⟨s!"No data available to download for {fileName}.", .error⟩] },
       []) := by
  unfold noDownloadData at h
  unfold handleDownload
  cases hout : s.outputData with
  | none => rfl
  | some b =>
    rw [hout] at h
    simp [h]

/-- Witness for C10 in the initial state, where no bundle exists. -/
theorem C10_download_guard_witness :
    handleDownload .scouted "1_Scouted_Lands.xlsx" .ok initialState =
      ({ initialState with logs := initialState.logs ++
          [⟨"No data available to download for 1_Scouted_Lands.xlsx.",
            .error⟩] },
       []) :=
  C10_download_guard .scouted "1_Scouted_Lands.xlsx" .ok initialState
    trivial

/-! ## Claim C8 -/

/-- C8 as stated is false on the code: starting a new run clears the log
(setLogs([]) in handleRunTransformation), so an entry appended by an
earlier ingestion is removed by an operation other than reset. -/
theorem C8_counterexample :
    Reachable exS2 ∧ Step exS2 .runStart exS3 ∧
    Event.runStart ≠ Event.reset ∧
    (⟨"'input.xlsx' loaded and validated successfully.", .success⟩ :
        LogEntry) ∈ exS2.logs ∧
    (⟨"'input.xlsx' loaded and validated successfully.", .success⟩ :
        LogEntry) ∉ exS3.logs :=
  ⟨reachable_exS2, Step.runStart exS2 (by decide), by decide, by decide,
   by decide⟩

/-- C8 amended: every diagnostic goes through the single ordered log
sink: when validation fails, every error of ValidationResult.errors is
appended to the log in order as an error entry; and every step other
than reset and the start of a new processing run (which clears the log
for the new run) extends the log, leaving the existing entries in place
as a prefix. -/
theorem C8_log_sink :
    (∀ (s : AppState) (name : String) (t : FileType)
        (em : List LogEntry) (j : JsonData) (v : ValidationResult),
        v.isValid = false →
        (handleFileChange name t (.ok em j v) s).logs =
          s.logs ++ em ++ v.errors.map fun e => ⟨e, .error⟩) ∧
    (∀ (s s' : AppState) (e : Event), Step s e s' → e ≠ .reset →
        e ≠ .runStart → s'.logs.take s.logs.length = s.logs) := by
  constructor
  · intro s name t em j v hv
    simp [handleFileChange, fileChangeFinish, fileChangeStart, hv]
  · intro s s' e hs hne1 hne2
    cases hs with
    | file name t o =>
      cases o with
      | ok em j v =>
        by_cases hv : v.isValid <;>
          simp [handleFileChange, fileChangeFinish, fileChangeStart, hv,
            List.append_assoc, List.take_left]
      | err em m =>
        simp [handleFileChange, fileChangeFinish, fileChangeStart,
          List.append_assoc, List.take_left]
    | runStart hen => exact absurd rfl hne2
    | runFinish o h =>
      cases o <;>
        simp [handleRunFinish, List.append_assoc, List.take_left]
    | reset h => exact absurd rfl hne1
    | download k fileName o h =>
      unfold handleDownload
      cases hout : s.outputData with
      | none => simp [List.take_left]
      | some b =>
        by_cases hlen : (b.get k).length = 0
        · simp [hlen, List.take_left]
        · cases o <;> simp [hlen, List.take_left]

/-- Witness for the amended C8: a failed validation appends its error
entry, and a successful ingestion step preserves the existing log as a
prefix. -/
theorem C8_log_sink_witness :
    (handleFileChange "bad.xlsx" .input
        (.ok [] [] ⟨false, ["missing required column: id"]⟩)
        initialState).logs =
      initialState.logs ++ [] ++
        (["missing required column: id"].map fun e =>
          (⟨e, .error⟩ : LogEntry)) ∧
    exS2.logs.take exS1.logs.length = exS1.logs :=
  ⟨C8_log_sink.1 initialState "bad.xlsx" .input [] []
      ⟨false, ["missing required column: id"]⟩ rfl,
   C8_log_sink.2 exS1 exS2 (.file "results.xlsx" .results exIngestOk)
      (Step.file exS1 "results.xlsx" .results exIngestOk) (by decide)
      (by decide)⟩

/-! ## Claim C9 -/

/-- State after a bad file is dropped on the Input slot while the run
started in `exS3` is still in flight. -/
def exB4 : AppState :=
  handleFileChange "bad.xlsx" .input (.err [] "corrupt file") exS3

/-- State after that in-flight run then completes successfully. -/
def exB5 : AppState := handleRunFinish (.ok [] exBundle) exB4

/-- C9 as stated is false on the code: a file selection during an
in-flight run invalidates the Input slot and clears its cache, yet the
run's completion still stores its bundle, reaching a state whose
outputData is non-null while the Input slot is invalid with no cached
data. -/
theorem C9_counterexample :
    Reachable exB5 ∧ exB5.outputData ≠ none ∧
    exB5.fileStatus.input = .invalid ∧ exB5.fileDataCache.input = none :=
  ⟨(((reachable_exS2.step (Step.runStart exS2 (by decide))).step
      (Step.file exS3 "bad.xlsx" .input (.err [] "corrupt file"))).step
      (Step.runFinish exB4 (.ok [] exBundle) (by decide))),
   by decide, by decide, by decide⟩

/-- Both slots validated with their normalized records cached: the
configuration a displayed bundle is supposed to certify. -/
def validPair (s : AppState) : Prop :=
  s.fileStatus.input = .valid ∧ s.fileStatus.results = .valid ∧
  s.fileDataCache.input ≠ none ∧ s.fileDataCache.results ≠ none

theorem qreachable_inv {s : AppState} (h : QReachable s) :
    (s.outputData ≠ none → validPair s) ∧
    (s.isProcessing = true → validPair s) := by
  induction h with
  | init =>
    exact ⟨fun hc => absurd rfl hc, fun hp => absurd hp (by decide)⟩
  | step h hs hq ih =>
    rename_i st st' e
    cases hs with
    | file name t o =>
      refine ⟨fun hc => ?_, fun hp => ?_⟩
      · exact absurd (handleFileChange_outputData name t o st) hc
      · rw [handleFileChange_isProcessing name t o st] at hp
        exact absurd (hq.symm.trans hp) (by decide)
    | runStart hen =>
      unfold handleRunStart
      cases hi : st.fileDataCache.input with
      | none =>
        simp only [hi]
        have hvp : st.outputData ≠ none → validPair st := ih.1
        exact ⟨fun hc => hvp hc, fun hp => absurd (hen.2.symm.trans hp)
          (by decide)⟩
      | some a =>
        cases hr2 : st.fileDataCache.results with
        | none =>
          simp only [hi, hr2]
          exact ⟨fun hc => ih.1 hc, fun hp => absurd (hen.2.symm.trans hp)
            (by decide)⟩
        | some b =>
          simp only [hi, hr2]
          have hcr := hen.1
          simp only [canRun, Bool.and_eq_true, beq_iff_eq] at hcr
          refine ⟨fun hc => absurd rfl hc, fun _ => ?_⟩
          exact ⟨hcr.1, hcr.2, by simp [hi], by simp [hr2]⟩
    | runFinish o hp =>
      have hvp : validPair st := ih.2 hp
      cases o with
      | ok em out =>
        exact ⟨fun _ => hvp, fun hpr => absurd hpr (by simp [handleRunFinish])⟩
      | noOutput em =>
        exact ⟨fun hc => hvp, fun hpr => absurd hpr (by simp [handleRunFinish])⟩
      | err em m =>
        exact ⟨fun hc => hvp, fun hpr => absurd hpr (by simp [handleRunFinish])⟩
    | reset hne =>
      exact ⟨fun hc => absurd rfl hc,
        fun hp => absurd (hq.symm.trans hp) (by decide)⟩
    | download k fileName o hne =>
      obtain ⟨h1, h2, h3, h4⟩ := handleDownload_frame k fileName o st
      refine ⟨fun hc => ?_, fun hp => ?_⟩
      · rw [h3] at hc
        obtain ⟨a1, a2, a3, a4⟩ := ih.1 hc
        exact ⟨by rw [h1]; exact a1, by rw [h1]; exact a2,
          by rw [h2]; exact a3, by rw [h2]; exact a4⟩
      · rw [h4] at hp
        obtain ⟨a1, a2, a3, a4⟩ := ih.2 hp
        exact ⟨by rw [h1]; exact a1, by rw [h1]; exact a2,
          by rw [h2]; exact a3, by rw [h2]; exact a4⟩

/-- C9 amended: along any trace in which no file selection or reset step
is taken while a run is in flight, a state with a non-null outputData
has both slots valid and both caches populated. (The restriction is
necessary: C9_counterexample shows an ingestion step during an in-flight
run breaks the invariant, because the run's completion re-sets
outputData afterwards.) -/
theorem C9_output_implies_valid (s : AppState) (h : QReachable s)
    (hout : s.outputData ≠ none) :
    s.fileStatus.input = .valid ∧ s.fileStatus.results = .valid ∧
    s.fileDataCache.input ≠ none ∧ s.fileDataCache.results ≠ none :=
  (qreachable_inv h).1 hout

/-- Witness for the amended C9 at the concrete post-run state. -/
theorem C9_output_implies_valid_witness :
    exS4.fileStatus.input = .valid ∧ exS4.fileStatus.results = .valid ∧
    exS4.fileDataCache.input ≠ none ∧ exS4.fileDataCache.results ≠ none :=
  C9_output_implies_valid exS4 qreachable_exS4 (by decide)

/-! ## Claim C2 -/

theorem classifyOutcome_key {o : ReconciliationOutcome} {c : Category}
    {r : OutputRecord} (h : classifyOutcome o = some (c, r)) :
    r.key = o.input.key := by
  unfold classifyOutcome at h
  cases ho : o.results with
  | none =>
    rw [ho] at h
    simp only [Option.some.injEq, Prod.mk.injEq] at h
    rw [← h.2]
    rfl
  | some rr =>
    rw [ho] at h
    cases hrv : rr.retrievalRecorded <;> cases hct : rr.contactRecorded <;>
        simp [hrv, hct, Prod.ext_iff] at h <;>
      · rw [← h.2]
        rfl

theorem classify_count (outs : List ReconciliationOutcome)
    (hks : ∀ o ∈ outs, o.input.key = o.key) (k : String) :
    ((classify outs).1.scouted.map OutputRecord.key).count k +
    ((classify outs).1.retrieved.map OutputRecord.key).count k +
    ((classify outs).1.contacted.map OutputRecord.key).count k +
    ((classify outs).2).count k =
    (outs.map ReconciliationOutcome.key).count k := by
  induction outs with
  | nil => simp [classify]
  | cons o rest ih =>
    have hko : o.input.key = o.key := hks o (by simp)
    have ih' := ih fun o' ho' => hks o' (by simp [ho'])
    rcases hcr : classify rest with ⟨b, d⟩
    rw [hcr] at ih'
    dsimp only at ih'
    rcases hc : classifyOutcome o with _ | ⟨c, r⟩
    · simp [classify, hc, hcr, List.count_cons]
      omega
    · have hrk : r.key = o.key := (classifyOutcome_key hc).trans hko
      cases c with
      | scouted =>
        simp [classify, hc, hcr, List.count_cons, hrk]
        omega
      | retrieved =>
        simp [classify, hc, hcr, List.count_cons, hrk]
        omega
      | contacted =>
        simp [classify, hc, hcr, List.count_cons, hrk]
        omega

theorem reconcile_map_key (inputs : List InputRecord)
    (results : List ResultRecord) :
    (reconcile inputs results).map ReconciliationOutcome.key =
      inputs.map InputRecord.key := by
  simp only [reconcile, List.map_map]
  rfl

theorem reconcile_input_key (inputs : List InputRecord)
    (results : List ResultRecord) :
    ∀ o ∈ reconcile inputs results, o.input.key = o.key := by
  intro o ho
  simp only [reconcile, List.mem_map] at ho
  obtain ⟨i, _, rfl⟩ := ho
  rfl

/-- C2: for every bundle produced by classify over the reconciled
outcomes of Input records with pairwise distinct keys, the key sets of
the scouted, retrieved and contacted sequences are pairwise disjoint,
and their union equals exactly the set of Input keys minus the keys
dropped with a diagnostic; hence every reconciled key appears in exactly
one of the three sequences. -/
theorem C2_partition (inputs : List InputRecord)
    (results : List ResultRecord)
    (hnd : (inputs.map InputRecord.key).Nodup) :
    ((runPipeline inputs results).1.scouted.map OutputRecord.key).Disjoint
      ((runPipeline inputs results).1.retrieved.map OutputRecord.key) ∧
    ((runPipeline inputs results).1.scouted.map OutputRecord.key).Disjoint
      ((runPipeline inputs results).1.contacted.map OutputRecord.key) ∧
    ((runPipeline inputs results).1.retrieved.map OutputRecord.key).Disjoint
      ((runPipeline inputs results).1.contacted.map OutputRecord.key) ∧
    ((runPipeline inputs results).1.scouted.map OutputRecord.key).toFinset ∪
      ((runPipeline inputs results).1.retrieved.map
        OutputRecord.key).toFinset ∪
      ((runPipeline inputs results).1.contacted.map
        OutputRecord.key).toFinset =
      (inputs.map InputRecord.key).toFinset \
        ((runPipeline inputs results).2).toFinset := by
  have hcount : ∀ k : String,
      ((runPipeline inputs results).1.scouted.map OutputRecord.key).count k +
      ((runPipeline inputs results).1.retrieved.map OutputRecord.key).count k +
      ((runPipeline inputs results).1.contacted.map OutputRecord.key).count k +
      ((runPipeline inputs results).2).count k =
      (inputs.map InputRecord.key).count k := by
    intro k
    have := classify_count (reconcile inputs results)
      (reconcile_input_key inputs results) k
    rwa [reconcile_map_key] at this
  have hle : ∀ k : String, (inputs.map InputRecord.key).count k ≤ 1 :=
    List.nodup_iff_count_le_one.mp hnd
  refine ⟨?_, ?_, ?_, ?_⟩
  · intro a ha hb
    have h1 := List.count_pos_iff.mpr ha
    have h2 := List.count_pos_iff.mpr hb
    have := hcount a
    have := hle a
    omega
  · intro a ha hb
    have h1 := List.count_pos_iff.mpr ha
    have h2 := List.count_pos_iff.mpr hb
    have := hcount a
    have := hle a
    omega
  · intro a ha hb
    have h1 := List.count_pos_iff.mpr ha
    have h2 := List.count_pos_iff.mpr hb
    have := hcount a
    have := hle a
    omega
  · ext k
    simp only [Finset.mem_union, Finset.mem_sdiff, List.mem_toFinset]
    constructor
    · intro hmem
      have hc := hcount k
      have hl := hle k
      have hpos :
          0 < ((runPipeline inputs results).1.scouted.map
              OutputRecord.key).count k +
            ((runPipeline inputs results).1.retrieved.map
              OutputRecord.key).count k +
            ((runPipeline inputs results).1.contacted.map
              OutputRecord.key).count k := by
        rcases hmem with (h | h) | h
        · have := List.count_pos_iff.mpr h
          omega
        · have := List.count_pos_iff.mpr h
          omega
        · have := List.count_pos_iff.mpr h
          omega
      constructor
      · exact List.count_pos_iff.mp (by omega)
      · intro hd
        have := List.count_pos_iff.mpr hd
        omega
    · intro ⟨hin, hnd2⟩
      have hc := hcount k
      have h1 := List.count_pos_iff.mpr hin
      have h0 : ((runPipeline inputs results).2).count k = 0 :=
        List.count_eq_zero.mpr hnd2
      have hpos :
          0 < ((runPipeline inputs results).1.scouted.map
              OutputRecord.key).count k ∨
          0 < ((runPipeline inputs results).1.retrieved.map
              OutputRecord.key).count k ∨
          0 < ((runPipeline inputs results).1.contacted.map
              OutputRecord.key).count k := by omega
      rcases hpos with h | h | h
      · exact Or.inl (Or.inl (List.count_pos_iff.mp h))
      · exact Or.inl (Or.inr (List.count_pos_iff.mp h))
      · exact Or.inr (List.count_pos_iff.mp h)

/-- Witness for C2 at the spec's own example scenario: Input keys A1 and
A2, one Results row for A1 with a contact milestone. -/
theorem C2_partition_witness :
    ((runPipeline [⟨"A1", [("area", "10")]⟩, ⟨"A2", [("area", "5")]⟩]
        [⟨"A1", true, false, [("status", "contacted")]⟩]).1.scouted.map
        OutputRecord.key).Disjoint
      ((runPipeline [⟨"A1", [("area", "10")]⟩, ⟨"A2", [("area", "5")]⟩]
        [⟨"A1", true, false, [("status", "contacted")]⟩]).1.retrieved.map
        OutputRecord.key) ∧
    ((runPipeline [⟨"A1", [("area", "10")]⟩, ⟨"A2", [("area", "5")]⟩]
        [⟨"A1", true, false, [("status", "contacted")]⟩]).1.scouted.map
        OutputRecord.key).Disjoint
      ((runPipeline [⟨"A1", [("area", "10")]⟩, ⟨"A2", [("area", "5")]⟩]
        [⟨"A1", true, false, [("status", "contacted")]⟩]).1.contacted.map
        OutputRecord.key) ∧
    ((runPipeline [⟨"A1", [("area", "10")]⟩, ⟨"A2", [("area", "5")]⟩]
        [⟨"A1", true, false, [("status", "contacted")]⟩]).1.retrieved.map
        OutputRecord.key).Disjoint
      ((runPipeline [⟨"A1", [("area", "10")]⟩, ⟨"A2", [("area", "5")]⟩]
        [⟨"A1", true, false, [("status", "contacted")]⟩]).1.contacted.map
        OutputRecord.key) ∧
    ((runPipeline [⟨"A1", [("area", "10")]⟩, ⟨"A2", [("area", "5")]⟩]
        [⟨"A1", true, false, [("status", "contacted")]⟩]).1.scouted.map
        OutputRecord.key).toFinset ∪
      ((runPipeline [⟨"A1", [("area", "10")]⟩, ⟨"A2", [("area", "5")]⟩]
        [⟨"A1", true, false, [("status", "contacted")]⟩]).1.retrieved.map
        OutputRecord.key).toFinset ∪
      ((runPipeline [⟨"A1", [("area", "10")]⟩, ⟨"A2", [("area", "5")]⟩]
        [⟨"A1", true, false, [("status", "contacted")]⟩]).1.contacted.map
        OutputRecord.key).toFinset =
      ([⟨"A1", [("area", "10")]⟩,
        (⟨"A2", [("area", "5")]⟩ : InputRecord)].map
        InputRecord.key).toFinset \
        ((runPipeline [⟨"A1", [("area", "10")]⟩, ⟨"A2", [("area", "5")]⟩]
          [⟨"A1", true, false, [("status", "contacted")]⟩]).2).toFinset :=
  C2_partition [⟨"A1", [("area", "10")]⟩, ⟨"A2", [("area", "5")]⟩]
    [⟨"A1", true, false, [("status", "contacted")]⟩] (by decide)
